/-
Verification of the toroidal circular-buffer grid-map engine
(grid_map_core/src/GridMap.cpp) against its natural-language
specification.

Modelling conventions:
* Cell values (C++ `float`) are modelled as `Option ℚ`: `some q` is a
  finite value and `none` is the non-finite invalid sentinel (NaN);
  `std::isfinite` becomes `Option.isSome`.
* Eigen matrices are modelled as a pair of signed dimensions plus a total
  entry function `ℤ → ℤ → Option ℚ`; a block write updates the entries in
  the block's index rectangle.
* `Eigen::Array2i` sizes, indices and index shifts are modelled as `ℤ`
  (per-axis fields), world positions and lengths as `ℚ` (exact reals).
* The data map `std::map<std::string, Matrix>` is a function
  `String → Option Matrix`.
* Helper functions from GridMapMath.cpp and SubmapGeometry.cpp are not in
  the sources; they are modelled from the spec (sections 3, 4.1, 4.2, 4.3,
  4.4) and marked `Modelled from the spec:` in their doc comments.
-/

import Mathlib

/-- A cell value: `some q` models a finite float, `none` models a
non-finite value (the NaN invalid sentinel). -/
abbrev Val := Option ℚ

/-- An Eigen dense matrix of cell values: signed dimensions plus a total
entry function (entries outside the dimensions are junk, as in C++). -/
structure GMatrix where
  rows : ℤ
  cols : ℤ
  entry : ℤ → ℤ → Val

/-- The default-constructed `Matrix()` (0 × 0, no meaningful entries). -/
def emptyMatrix : GMatrix := ⟨0, 0, fun _ _ => none⟩

/-- Write NaN to the block of `nr × nc` cells whose top-left entry is
`(i, j)` — models `m.block(i, j, nr, nc).setConstant(NAN)`. -/
def setBlockNaN (m : GMatrix) (i j nr nc : ℤ) : GMatrix :=
  { m with entry := fun r c =>
      if i ≤ r ∧ r < i + nr ∧ j ≤ c ∧ c < j + nc then none else m.entry r c }

/-- The state of a `grid_map::GridMap` (GridMap.cpp data members). -/
@[ext]
structure GridMap where
  layers : List String
  basicLayers : List String
  data : String → Option GMatrix
  size0 : ℤ
  size1 : ℤ
  resolution : ℚ
  length0 : ℚ
  length1 : ℚ
  pos0 : ℚ
  pos1 : ℚ
  startIndex0 : ℤ
  startIndex1 : ℤ
  timestamp : ℕ
  frameId : String

/-- The constructor `GridMap(layers)`: zero geometry, one default matrix
per layer name. -/
def mkGridMap (layers : List String) : GridMap where
  layers := layers
  basicLayers := []
  data := fun l => if l ∈ layers then some emptyMatrix else none
  size0 := 0
  size1 := 0
  resolution := 0
  length0 := 0
  length1 := 0
  pos0 := 0
  pos1 := 0
  startIndex0 := 0
  startIndex1 := 0
  timestamp := 0
  frameId := ""

/-- The value stored for layer `l` at buffer index `(i, j)`:
`none` when the layer does not exist, `some v` otherwise. -/
def cellValue (g : GridMap) (l : String) (i j : ℤ) : Option Val :=
  (g.data l).map (fun m => m.entry i j)

/-- C++ `round` (round half away from zero), used by `setGeometry` and —
per spec section 9 — for the pan's position-delta rounding. -/
def roundAway (x : ℚ) : ℤ := if 0 ≤ x then ⌊x + 1/2⌋ else ⌈x - 1/2⌉

/-- Modelled from the spec: GridMapMath's `mapIndexWithinRange` reduces a
buffer index modularly into `[0, size)` (spec sections 3 and 9: a single
reusable reduce-into-range helper). -/
def mapIndexWithinRange (index size : ℤ) : ℤ := index % size

/-- Modelled from the spec: GridMapMath's `checkIfPositionWithinMap`,
one axis — `center - length/2 ≤ p < center + length/2` (spec section 4.1). -/
def withinAxis (p len c : ℚ) : Bool := decide (c - len/2 ≤ p) && decide (p < c + len/2)

/-- Modelled from the spec: GridMapMath's `checkIfPositionWithinMap`
(spec section 4.1: axis-aligned bounds check against the window). -/
def checkIfPositionWithinMap (p0 p1 len0 len1 c0 c1 : ℚ) : Bool :=
  withinAxis p0 len0 c0 && withinAxis p1 len1 c1

/-- Modelled from the spec: one axis of GridMapMath's
`getIndexFromPosition` — unwrapped logical offset from the map's low
corner, then `startIndex` added and reduced modulo `size` (spec sections
3 and 4.1). -/
def getIndexFromPositionAxis (p c len res : ℚ) (n s : ℤ) : ℤ :=
  mapIndexWithinRange (⌊(p - (c - len/2)) / res⌋ + s) n

/-- Modelled from the spec: one axis of GridMapMath's
`getPositionFromIndex` — unwrap the logical offset
`(index - startIndex + size) % size`, convert to a world delta via the
resolution, add the corner position plus the half-cell centering offset
(spec sections 3 and 4.1). -/
def getPositionFromIndexAxis (b : ℤ) (c len res : ℚ) (n s : ℤ) : ℚ :=
  (c - len/2) + res * (((mapIndexWithinRange (b - s) n : ℤ) : ℚ) + 1/2)

/-- `GridMap::getIndex` (GridMap.cpp line 193): position-to-index with the
in-map check as success flag. -/
def getIndexGM (g : GridMap) (p0 p1 : ℚ) : Option (ℤ × ℤ) :=
  if checkIfPositionWithinMap p0 p1 g.length0 g.length1 g.pos0 g.pos1 then
    some (getIndexFromPositionAxis p0 g.pos0 g.length0 g.resolution g.size0 g.startIndex0,
          getIndexFromPositionAxis p1 g.pos1 g.length1 g.resolution g.size1 g.startIndex1)
  else none

/-- `GridMap::getPosition` (GridMap.cpp line 198): index-to-position with
the index-in-range check as success flag. -/
def getPositionGM (g : GridMap) (i j : ℤ) : Option (ℚ × ℚ) :=
  if 0 ≤ i ∧ i < g.size0 ∧ 0 ≤ j ∧ j < g.size1 then
    some (getPositionFromIndexAxis i g.pos0 g.length0 g.resolution g.size0 g.startIndex0,
          getPositionFromIndexAxis j g.pos1 g.length1 g.resolution g.size1 g.startIndex1)
  else none

/-- `GridMap::atPosition` (GridMap.cpp line 166) as a partial lookup:
`none` when the position is out of range or the layer is missing. -/
def atPositionGM (g : GridMap) (l : String) (p0 p1 : ℚ) : Option Val :=
  (getIndexGM g p0 p1).bind (fun ij => cellValue g l ij.1 ij.2)

/-- `GridMap::isValid(index, layers)` (GridMap.cpp lines 219-226):
false on an empty layer list, otherwise all listed layers finite. -/
def isValidGM (g : GridMap) (i j : ℤ) (layers : List String) : Bool :=
  if layers.isEmpty then false
  else layers.all (fun l =>
    match g.data l with
    | some m => (m.entry i j).isSome
    | none => false)

/-- `GridMap::isValid(index)` (GridMap.cpp lines 208-211): validity with
respect to the basic layers. -/
def isValidBasicGM (g : GridMap) (i j : ℤ) : Bool :=
  isValidGM g i j g.basicLayers

/-- `GridMap::clearAll` (GridMap.cpp lines 465-470): every layer's matrix
set to NaN. -/
def clearAll (g : GridMap) : GridMap :=
  { g with data := fun l => (g.data l).map (fun m => { m with entry := fun _ _ => none }) }

/-- Shared body of `GridMap::clearCols` / `clearRows` (GridMap.cpp lines
472-484): set a block to NaN in every basic layer. -/
def clearBlockBasic (g : GridMap) (i j nr nc : ℤ) : GridMap :=
  { g with data := fun l =>
      if l ∈ g.basicLayers then (g.data l).map (fun m => setBlockNaN m i j nr nc)
      else g.data l }

/-- `GridMap::clearCols(index, nCols)` (GridMap.cpp lines 472-477): its
body clears `block(index, 0, nCols, size(1))` of every basic layer —
a band of `nCols` buffer rows spanning all columns. -/
def clearCols (g : GridMap) (index nCols : ℤ) : GridMap :=
  clearBlockBasic g index 0 nCols g.size1

/-- `GridMap::clearRows(index, nRows)` (GridMap.cpp lines 479-484): its
body clears `block(0, index, size(0), nRows)` of every basic layer —
a band of `nRows` buffer columns spanning all rows. -/
def clearRows (g : GridMap) (index nRows : ℤ) : GridMap :=
  clearBlockBasic g 0 index g.size0 nRows

/-- `GridMap::resize` (GridMap.cpp lines 486-492): set the size and
resize every layer's matrix (entries are left uninitialized, modelled by
keeping the old entry function). -/
def resize (g : GridMap) (s0 s1 : ℤ) : GridMap :=
  { g with size0 := s0, size1 := s1,
           data := fun l => (g.data l).map (fun m => { m with rows := s0, cols := s1 }) }

/-- `GridMap::setGeometry` (GridMap.cpp lines 47-66). -/
def setGeometry (g : GridMap) (len0 len1 res p0 p1 : ℚ) : GridMap :=
  let s0 := roundAway (len0 / res)
  let s1 := roundAway (len1 / res)
  let g1 := clearAll (resize g s0 s1)
  { g1 with resolution := res,
            length0 := (s0 : ℚ) * res, length1 := (s1 : ℚ) * res,
            pos0 := p0, pos1 := p1,
            startIndex0 := 0, startIndex1 := 0 }

/-- `GridMap::setStartIndex` (GridMap.cpp lines 440-442): stores the
given index verbatim (no modular reduction). -/
def setStartIndex (g : GridMap) (i0 i1 : ℤ) : GridMap :=
  { g with startIndex0 := i0, startIndex1 := i1 }

/-- `GridMap::add(layer, data)` (GridMap.cpp lines 88-101). -/
def addLayer (g : GridMap) (l : String) (m : GMatrix) : GridMap :=
  if (g.data l).isSome then
    { g with data := fun x => if x = l then some m else g.data x }
  else
    { g with data := fun x => if x = l then some m else g.data x,
             layers := g.layers ++ [l] }

/-- `GridMap::erase(layer)` (GridMap.cpp lines 136-150). -/
def eraseLayer (g : GridMap) (l : String) : GridMap × Bool :=
  if (g.data l).isSome then
    let g1 : GridMap := { g with data := fun x => if x = l then none else g.data x }
    if l ∈ g1.layers then
      ({ g1 with layers := g1.layers.erase l, basicLayers := g1.basicLayers.erase l }, true)
    else (g1, false)
  else (g, false)

/-- Modelled from the spec: GridMapMath's `getIndexShiftFromPositionShift`
(spec section 4.3 step 2: `indexShift = round(delta / resolution)` per
axis, with round half away from zero per spec section 9). -/
def getIndexShiftFromPositionShift (positionShift res : ℚ) : ℤ :=
  roundAway (positionShift / res)

/-- Modelled from the spec: GridMapMath's `getPositionShiftFromIndexShift`
(spec section 4.3 step 2: `alignedDelta = indexShift * resolution`). -/
def getPositionShiftFromIndexShift (indexShift : ℤ) (res : ℚ) : ℚ :=
  (indexShift : ℚ) * res

/-- The per-axis index shift computed by `GridMap::move` (GridMap.cpp
lines 322-324), axis 0. -/
def moveIndexShift0 (g : GridMap) (p0 : ℚ) : ℤ :=
  getIndexShiftFromPositionShift (p0 - g.pos0) g.resolution

/-- The per-axis index shift computed by `GridMap::move` (GridMap.cpp
lines 322-324), axis 1. -/
def moveIndexShift1 (g : GridMap) (p1 : ℚ) : ℤ :=
  getIndexShiftFromPositionShift (p1 - g.pos1) g.resolution

/-- The `Lines` records (buffer index, cell count) produced by one axis
iteration of the partial-shift branch of `GridMap::move` (GridMap.cpp
lines 336-364): empty when the shift is zero or the whole map is dropped,
otherwise the one or two contiguous runs of the stale band. -/
def moveAxisLines (d n s : ℤ) : List (ℤ × ℤ) :=
  if d = 0 then []
  else if n ≤ |d| then []
  else
    let sign : ℤ := if 0 < d then 1 else -1
    let start : ℤ := s - (if sign < 0 then 1 else 0)
    let endI : ℤ := start - sign + d
    let index : ℤ := mapIndexWithinRange (if 0 < sign then start else endI) n
    let nCells : ℤ := |d|
    if index + nCells ≤ n then [(index, nCells)]
    else [(index, n - index), (0, nCells - (n - index))]

/-- Fold the axis-0 stale runs through `clearCols`, as the `i == 0`
branches of GridMap.cpp lines 349-362 do. -/
def applyLines0 (g : GridMap) (lines : List (ℤ × ℤ)) : GridMap :=
  lines.foldl (fun h p => clearCols h p.1 p.2) g

/-- Fold the axis-1 stale runs through `clearRows`, as the `i == 1`
branches of GridMap.cpp lines 349-363 do. -/
def applyLines1 (g : GridMap) (lines : List (ℤ × ℤ)) : GridMap :=
  lines.foldl (fun h p => clearRows h p.1 p.2) g

/-- The data mutation of the `i = 0` iteration of the loop in
`GridMap::move` (GridMap.cpp lines 330-367). -/
def moveClear0 (g : GridMap) (d : ℤ) : GridMap :=
  if d = 0 then g
  else if g.size0 ≤ |d| then clearAll g
  else applyLines0 g (moveAxisLines d g.size0 g.startIndex0)

/-- The data mutation of the `i = 1` iteration of the loop in
`GridMap::move` (GridMap.cpp lines 330-367). -/
def moveClear1 (g : GridMap) (d : ℤ) : GridMap :=
  if d = 0 then g
  else if g.size1 ≤ |d| then clearAll g
  else applyLines1 g (moveAxisLines d g.size1 g.startIndex1)

/-- The outputs of `GridMap::move` (GridMap.cpp lines 307-386): the
mutated map (`*this` after the call), the new-region index/size lists,
and the moved flag. -/
structure MoveResult where
  map : GridMap
  regionIndeces : List (ℤ × ℤ)
  regionSizes : List (ℤ × ℤ)
  moved : Bool

/-- `GridMap::move(position, newRegionIndeces, newRegionSizes)`
(GridMap.cpp lines 307-386). -/
def move (g : GridMap) (p0 p1 : ℚ) : MoveResult :=
  let d0 := moveIndexShift0 g p0
  let d1 := moveIndexShift1 g p1
  let colLines := moveAxisLines d0 g.size0 g.startIndex0
  let rowLines := moveAxisLines d1 g.size1 g.startIndex1
  let g2 := moveClear1 (moveClear0 g d0) d1
  { map := { g2 with
      startIndex0 := mapIndexWithinRange (g2.startIndex0 + d0) g2.size0,
      startIndex1 := mapIndexWithinRange (g2.startIndex1 + d1) g2.size1,
      pos0 := g2.pos0 + getPositionShiftFromIndexShift d0 g.resolution,
      pos1 := g2.pos1 + getPositionShiftFromIndexShift d1 g.resolution },
    regionIndeces := colLines.map (fun l => ((0 : ℤ), l.1))
      ++ rowLines.map (fun l => (l.1, (0 : ℤ))),
    regionSizes := colLines.map (fun l => (g.size0, l.2))
      ++ rowLines.map (fun l => (l.2, g.size1)),
    moved := decide (d0 ≠ 0) || decide (d1 ≠ 0) }

/-- The quadrant tag of a buffer region: which corner of the destination
rectangle the region fills (spec section 4.2). -/
inductive Quadrant where
  | topLeftQ
  | topRightQ
  | bottomLeftQ
  | bottomRightQ
deriving DecidableEq

/-- A buffer region: buffer-space origin, size and destination quadrant
(spec section 4.2). -/
structure BufferRegion where
  idx0 : ℤ
  idx1 : ℤ
  sz0 : ℤ
  sz1 : ℤ
  quadrant : Quadrant

/-- Modelled from the spec: GridMapMath's `getBufferRegionsForSubmap`
(spec section 4.2): per axis the range `[start, start + req)` either fits
(`start + req ≤ bufferSize`, one interval) or wraps into
`[start, bufferSize)` and `[0, req - (bufferSize - start))`; the products
of the row and column intervals give 1 to 4 regions, tagged by which
interval (first or second) they use on each axis. -/
def getBufferRegionsForSubmap (tl0 tl1 req0 req1 n0 n1 : ℤ) : List BufferRegion :=
  if tl0 + req0 ≤ n0 then
    if tl1 + req1 ≤ n1 then
      [⟨tl0, tl1, req0, req1, Quadrant.topLeftQ⟩]
    else
      [⟨tl0, tl1, req0, n1 - tl1, Quadrant.topLeftQ⟩,
       ⟨tl0, 0, req0, req1 - (n1 - tl1), Quadrant.topRightQ⟩]
  else
    if tl1 + req1 ≤ n1 then
      [⟨tl0, tl1, n0 - tl0, req1, Quadrant.topLeftQ⟩,
       ⟨0, tl1, req0 - (n0 - tl0), req1, Quadrant.bottomLeftQ⟩]
    else
      [⟨tl0, tl1, n0 - tl0, n1 - tl1, Quadrant.topLeftQ⟩,
       ⟨tl0, 0, n0 - tl0, req1 - (n1 - tl1), Quadrant.topRightQ⟩,
       ⟨0, tl1, req0 - (n0 - tl0), n1 - tl1, Quadrant.bottomLeftQ⟩,
       ⟨0, 0, req0 - (n0 - tl0), req1 - (n1 - tl1), Quadrant.bottomRightQ⟩]

/-- One region copy of `GridMap::getSubmap` (GridMap.cpp lines 286-300):
write the `sz0 × sz1` source block at the region's buffer origin into the
destination corner named by the quadrant (Eigen's `topLeftCorner`,
`topRightCorner`, `bottomLeftCorner`, `bottomRightCorner`). -/
def writeRegion (dst src : GMatrix) (reg : BufferRegion) : GMatrix :=
  let dr : ℤ := match reg.quadrant with
    | Quadrant.topLeftQ => 0
    | Quadrant.topRightQ => 0
    | Quadrant.bottomLeftQ => dst.rows - reg.sz0
    | Quadrant.bottomRightQ => dst.rows - reg.sz0
  let dc : ℤ := match reg.quadrant with
    | Quadrant.topLeftQ => 0
    | Quadrant.topRightQ => dst.cols - reg.sz1
    | Quadrant.bottomLeftQ => 0
    | Quadrant.bottomRightQ => dst.cols - reg.sz1
  { dst with entry := fun r c =>
      if dr ≤ r ∧ r < dr + reg.sz0 ∧ dc ≤ c ∧ c < dc + reg.sz1 then
        src.entry (reg.idx0 + (r - dr)) (reg.idx1 + (c - dc))
      else dst.entry r c }

/-- The geometric information computed for a submap request:
success flag, per-axis logical top-left offset in the source, buffer
top-left index, realized size, realized length and realized center. -/
structure SubmapInfo where
  success : Bool
  off0 : ℤ
  off1 : ℤ
  topLeft0 : ℤ
  topLeft1 : ℤ
  n0 : ℤ
  n1 : ℤ
  len0 : ℚ
  len1 : ℚ
  pos0 : ℚ
  pos1 : ℚ

/-- Modelled from the spec: `SubmapGeometry` (spec section 4.4) — the
realized size is the desired length rounded to whole cells (consistent
with `setGeometry`); the window is snapped to the source's cell grid at
the logical top-left offset of the requested window's corner; the request
fails unless the realized window fits entirely inside the map bounds;
the realized length and center are derived from the realized size and
the source's resolution and cell grid, not the raw requested values. -/
def getSubmapInfo (g : GridMap) (pc0 pc1 lreq0 lreq1 : ℚ) : SubmapInfo :=
  let n0 := roundAway (lreq0 / g.resolution)
  let n1 := roundAway (lreq1 / g.resolution)
  let rl0 : ℚ := (n0 : ℚ) * g.resolution
  let rl1 : ℚ := (n1 : ℚ) * g.resolution
  let off0 := ⌊((pc0 - rl0/2) - (g.pos0 - g.length0/2)) / g.resolution⌋
  let off1 := ⌊((pc1 - rl1/2) - (g.pos1 - g.length1/2)) / g.resolution⌋
  { success := decide (0 ≤ off0) && decide (off0 + n0 ≤ g.size0)
      && decide (0 ≤ off1) && decide (off1 + n1 ≤ g.size1),
    off0 := off0, off1 := off1,
    topLeft0 := mapIndexWithinRange (off0 + g.startIndex0) g.size0,
    topLeft1 := mapIndexWithinRange (off1 + g.startIndex1) g.size1,
    n0 := n0, n1 := n1,
    len0 := rl0, len1 := rl1,
    pos0 := (g.pos0 - g.length0/2) + (off0 : ℚ) * g.resolution + rl0/2,
    pos1 := (g.pos1 - g.length1/2) + (off1 : ℚ) * g.resolution + rl1/2 }

/-- The outputs of `GridMap::getSubmap` (GridMap.cpp lines 260-305): the
post-call state of the source map (the method never writes to `*this`),
the returned submap, and the success flag. -/
structure SubmapResult where
  newSource : GridMap
  submap : GridMap
  success : Bool

/-- The successful-path submap of `GridMap::getSubmap` (GridMap.cpp lines
264-304): a fresh contiguous map (`startIndex` zero) whose geometry comes
from the submap information and whose layer data is assembled from the
(up to four) wraparound buffer regions of the source. -/
def submapAssembled (g : GridMap) (info : SubmapInfo) : GridMap :=
  let base : GridMap :=
    { mkGridMap g.layers with
        basicLayers := g.basicLayers,
        timestamp := g.timestamp,
        frameId := g.frameId }
  let subG : GridMap := setGeometry base info.len0 info.len1 g.resolution info.pos0 info.pos1
  let sub0 : GridMap := { subG with startIndex0 := 0, startIndex1 := 0 }
  let regions := getBufferRegionsForSubmap info.topLeft0 info.topLeft1
    sub0.size0 sub0.size1 g.size0 g.size1
  { sub0 with data := fun l =>
      (match g.data l, sub0.data l with
       | some srcM, some dstM => some (regions.foldl (fun d reg => writeRegion d srcM reg) dstM)
       | _, dstO => dstO) }

/-- `GridMap::getSubmap(position, length, ..., isSuccess)` (GridMap.cpp
lines 260-305): on geometric failure a default `GridMap(layers_)` is
returned with success false; otherwise the assembled submap. The modelled
region decomposition is total, so the source's second failure branch
(decomposition failure) does not occur. -/
def getSubmapGM (g : GridMap) (pc0 pc1 lreq0 lreq1 : ℚ) : SubmapResult :=
  let info := getSubmapInfo g pc0 pc1 lreq0 lreq1
  if info.success = false then
    { newSource := g, submap := mkGridMap g.layers, success := false }
  else
    { newSource := g,
      submap := submapAssembled g info,
      success := true }

/-- All fields except the layer data agree — the clears only touch data. -/
def sameShape (g h : GridMap) : Prop :=
  g.layers = h.layers ∧ g.basicLayers = h.basicLayers ∧
  g.size0 = h.size0 ∧ g.size1 = h.size1 ∧ g.resolution = h.resolution ∧
  g.length0 = h.length0 ∧ g.length1 = h.length1 ∧
  g.pos0 = h.pos0 ∧ g.pos1 = h.pos1 ∧
  g.startIndex0 = h.startIndex0 ∧ g.startIndex1 = h.startIndex1

/-- A run list covers a line index. -/
def coveredBy (lines : List (ℤ × ℤ)) (r : ℤ) : Prop :=
  ∃ p ∈ lines, p.1 ≤ r ∧ r < p.1 + p.2

instance coveredBy.instDecidable (lines : List (ℤ × ℤ)) (r : ℤ) :
    Decidable (coveredBy lines r) :=
  inferInstanceAs (Decidable (∃ p ∈ lines, p.1 ≤ r ∧ r < p.1 + p.2))

/-- A 3 × 3 test matrix with distinct finite entries. -/
def matIdx : GMatrix := ⟨3, 3, fun i j => some (10*i + j)⟩

/-- A 3 × 3 test matrix with constant entry 5. -/
def matFive : GMatrix := ⟨3, 3, fun _ _ => some 5⟩

/-- A 3 × 3 example grid (resolution 1, centered at the origin, window
`[-1.5, 1.5)` on both axes) with a basic layer "a" and a non-basic
layer "x". -/
def gEx : GridMap :=
  { layers := ["a", "x"], basicLayers := ["a"],
    data := fun l => if l = "a" then some matIdx else if l = "x" then some matFive else none,
    size0 := 3, size1 := 3, resolution := 1,
    length0 := 3, length1 := 3, pos0 := 0, pos1 := 0,
    startIndex0 := 0, startIndex1 := 0, timestamp := 0, frameId := "" }

/-- The example grid with an empty basic-layer list. -/
def gNB : GridMap := { gEx with basicLayers := [] }

/-- The axis-0 world coordinate of buffer cell row `i` after
`move g p0 p1` — `getPosition` evaluated on the post-move map. -/
def cellPositionAfterMove0 (g : GridMap) (p0 p1 : ℚ) (i : ℤ) : ℚ :=
  getPositionFromIndexAxis i (move g p0 p1).map.pos0 (move g p0 p1).map.length0
    (move g p0 p1).map.resolution (move g p0 p1).map.size0 (move g p0 p1).map.startIndex0

/-- The axis-1 world coordinate of buffer cell column `j` after
`move g p0 p1` — `getPosition` evaluated on the post-move map. -/
def cellPositionAfterMove1 (g : GridMap) (p0 p1 : ℚ) (j : ℤ) : ℚ :=
  getPositionFromIndexAxis j (move g p0 p1).map.pos1 (move g p0 p1).map.length1
    (move g p0 p1).map.resolution (move g p0 p1).map.size1 (move g p0 p1).map.startIndex1

/- ------------------------------------------------------------------ -/
/- Theorems.                                                           -/
/- ------------------------------------------------------------------ -/

theorem roundAway_zero : roundAway 0 = 0 := by
  norm_num [roundAway]

theorem roundAway_intCast (z : ℤ) : roundAway (z : ℚ) = z := by
  unfold roundAway
  split_ifs with h
  · rw [Int.floor_int_add]
    norm_num
  · rw [show ((z : ℚ) - 1/2) = (-(1/2 : ℚ) + (z : ℚ)) by ring, Int.ceil_add_int]
    norm_num

theorem roundAway_nonneg {x : ℚ} (h : 0 ≤ x) : 0 ≤ roundAway x := by
  unfold roundAway
  rw [if_pos h]
  positivity

theorem emod_window (x n : ℤ) (hn : 0 < n) (h1 : -(2*n) ≤ x) (h2 : x < 2*n) :
    x % n = if x < -n then x + 2*n else if x < 0 then x + n else if x < n then x else x - n := by
  split_ifs with ha hb hc
  · calc x % n = (x + n * 2) % n := (Int.add_mul_emod_self_left x n 2).symm
      _ = x + n * 2 := Int.emod_eq_of_lt (by omega) (by omega)
      _ = x + 2*n := by ring
  · calc x % n = (x + n * 1) % n := (Int.add_mul_emod_self_left x n 1).symm
      _ = x + n * 1 := Int.emod_eq_of_lt (by omega) (by omega)
      _ = x + n := by ring
  · exact Int.emod_eq_of_lt (by omega) (by omega)
  · have e : x = (x - n) + n * 1 := by ring
    calc x % n = ((x - n) + n * 1) % n := by rw [← e]
      _ = (x - n) % n := Int.add_mul_emod_self_left (x - n) n 1
      _ = x - n := Int.emod_eq_of_lt (by omega) (by omega)

theorem emod_mem (x n : ℤ) (hn : 0 < n) : 0 ≤ x % n ∧ x % n < n :=
  ⟨Int.emod_nonneg x (by omega), Int.emod_lt_of_pos x hn⟩

theorem qhalf_nonneg (x : ℤ) : ((0:ℚ) ≤ (x:ℚ) + 1/2) ↔ 0 ≤ x := by
  constructor
  · intro h
    by_contra hc
    push_neg at hc
    have hx : x ≤ -1 := by omega
    have hq : (x:ℚ) ≤ -1 := by exact_mod_cast hx
    linarith
  · intro h
    have hq : (0:ℚ) ≤ (x:ℚ) := by exact_mod_cast h
    linarith

theorem qhalf_lt (x y : ℤ) : ((x:ℚ) + 1/2 < (y:ℚ)) ↔ x < y := by
  constructor
  · intro h
    by_contra hc
    push_neg at hc
    have hq : (y:ℚ) ≤ (x:ℚ) := by exact_mod_cast hc
    linarith
  · intro h
    have hx : x + 1 ≤ y := by omega
    have hq : (x:ℚ) + 1 ≤ (y:ℚ) := by exact_mod_cast hx
    linarith

theorem sameShape_refl (g : GridMap) : sameShape g g := by
  refine ⟨rfl, rfl, rfl, rfl, rfl, rfl, rfl, rfl, rfl, rfl, rfl⟩

theorem sameShape_trans {g h k : GridMap} (a : sameShape g h) (b : sameShape h k) :
    sameShape g k := by
  obtain ⟨a1, a2, a3, a4, a5, a6, a7, a8, a9, a10, a11⟩ := a
  obtain ⟨b1, b2, b3, b4, b5, b6, b7, b8, b9, b10, b11⟩ := b
  exact ⟨a1.trans b1, a2.trans b2, a3.trans b3, a4.trans b4, a5.trans b5, a6.trans b6,
    a7.trans b7, a8.trans b8, a9.trans b9, a10.trans b10, a11.trans b11⟩

theorem clearAll_shape (g : GridMap) : sameShape g (clearAll g) := sameShape_refl g

theorem clearBlockBasic_shape (g : GridMap) (i j nr nc : ℤ) :
    sameShape g (clearBlockBasic g i j nr nc) := sameShape_refl g

theorem applyLines0_shape (lines : List (ℤ × ℤ)) (g : GridMap) :
    sameShape g (applyLines0 g lines) := by
  induction lines generalizing g with
  | nil => exact sameShape_refl g
  | cons a rest ih =>
      have h1 : applyLines0 g (a :: rest) = applyLines0 (clearCols g a.1 a.2) rest := rfl
      rw [h1]
      exact sameShape_trans (sameShape_refl g) (ih (clearCols g a.1 a.2))

theorem applyLines1_shape (lines : List (ℤ × ℤ)) (g : GridMap) :
    sameShape g (applyLines1 g lines) := by
  induction lines generalizing g with
  | nil => exact sameShape_refl g
  | cons a rest ih =>
      have h1 : applyLines1 g (a :: rest) = applyLines1 (clearRows g a.1 a.2) rest := rfl
      rw [h1]
      exact sameShape_trans (sameShape_refl g) (ih (clearRows g a.1 a.2))

theorem moveClear0_shape (g : GridMap) (d : ℤ) : sameShape g (moveClear0 g d) := by
  unfold moveClear0
  split_ifs with h1 h2
  · exact sameShape_refl g
  · exact sameShape_refl g
  · exact applyLines0_shape _ g

theorem moveClear1_shape (g : GridMap) (d : ℤ) : sameShape g (moveClear1 g d) := by
  unfold moveClear1
  split_ifs with h1 h2
  · exact sameShape_refl g
  · exact sameShape_refl g
  · exact applyLines1_shape _ g

theorem clearAll_mapNone (g : GridMap) (l : String) :
    ((clearAll g).data l).map (fun _ => (none : Val)) = (g.data l).map (fun _ => (none : Val)) := by
  unfold clearAll
  dsimp only
  cases g.data l <;> rfl

theorem clearBlockBasic_mapNone (g : GridMap) (i j nr nc : ℤ) (l : String) :
    ((clearBlockBasic g i j nr nc).data l).map (fun _ => (none : Val))
      = (g.data l).map (fun _ => (none : Val)) := by
  unfold clearBlockBasic
  dsimp only
  split_ifs with h
  · cases g.data l <;> rfl
  · rfl

theorem cellValue_clearAll (g : GridMap) (l : String) (i j : ℤ) :
    cellValue (clearAll g) l i j = (g.data l).map (fun _ => (none : Val)) := by
  unfold cellValue clearAll
  dsimp only
  cases g.data l <;> rfl

theorem cellValue_clearBlockBasic (g : GridMap) (i j nr nc : ℤ) (l : String) (r c : ℤ) :
    cellValue (clearBlockBasic g i j nr nc) l r c =
      if l ∈ g.basicLayers ∧ i ≤ r ∧ r < i + nr ∧ j ≤ c ∧ c < j + nc
      then (g.data l).map (fun _ => (none : Val))
      else cellValue g l r c := by
  unfold cellValue clearBlockBasic setBlockNaN
  dsimp only
  by_cases hm : l ∈ g.basicLayers
  · rw [if_pos hm]
    by_cases hin : i ≤ r ∧ r < i + nr ∧ j ≤ c ∧ c < j + nc
    · rw [if_pos ⟨hm, hin⟩]
      cases g.data l with
      | none => rfl
      | some m => simp [hin]
    · rw [if_neg (by tauto)]
      cases g.data l with
      | none => rfl
      | some m => simp [hin]
  · rw [if_neg hm, if_neg (by tauto)]

theorem coveredBy_nil (r : ℤ) : ¬ coveredBy [] r := by
  simp [coveredBy]

theorem coveredBy_cons (a : ℤ × ℤ) (rest : List (ℤ × ℤ)) (r : ℤ) :
    coveredBy (a :: rest) r ↔ (a.1 ≤ r ∧ r < a.1 + a.2) ∨ coveredBy rest r := by
  simp only [coveredBy, List.mem_cons]
  constructor
  · rintro ⟨p, hp | hp, h⟩
    · subst hp; exact Or.inl h
    · exact Or.inr ⟨p, hp, h⟩
  · rintro (h | ⟨p, hp, h⟩)
    · exact ⟨a, Or.inl rfl, h⟩
    · exact ⟨p, Or.inr hp, h⟩

theorem cellValue_applyLines0 (lines : List (ℤ × ℤ)) (g : GridMap) (l : String) (r c : ℤ) :
    cellValue (applyLines0 g lines) l r c =
      if l ∈ g.basicLayers ∧ coveredBy lines r ∧ 0 ≤ c ∧ c < g.size1
      then (g.data l).map (fun _ => (none : Val)) else cellValue g l r c := by
  induction lines generalizing g with
  | nil =>
      simp [applyLines0, coveredBy]
  | cons a rest ih =>
      have h1 : applyLines0 g (a :: rest) = applyLines0 (clearCols g a.1 a.2) rest := rfl
      rw [h1, ih]
      have hb : (clearCols g a.1 a.2).basicLayers = g.basicLayers := rfl
      have hs : (clearCols g a.1 a.2).size1 = g.size1 := rfl
      have hm : ((clearCols g a.1 a.2).data l).map (fun _ => (none : Val))
          = (g.data l).map (fun _ => (none : Val)) := clearBlockBasic_mapNone g a.1 0 a.2 g.size1 l
      rw [hb, hs, hm]
      have hc : cellValue (clearCols g a.1 a.2) l r c =
          if l ∈ g.basicLayers ∧ a.1 ≤ r ∧ r < a.1 + a.2 ∧ 0 ≤ c ∧ c < 0 + g.size1
          then (g.data l).map (fun _ => (none : Val)) else cellValue g l r c :=
        cellValue_clearBlockBasic g a.1 0 a.2 g.size1 l r c
      rw [hc]
      simp only [coveredBy_cons, zero_add]
      split_ifs <;> first | rfl | tauto

theorem cellValue_applyLines1 (lines : List (ℤ × ℤ)) (g : GridMap) (l : String) (r c : ℤ) :
    cellValue (applyLines1 g lines) l r c =
      if l ∈ g.basicLayers ∧ coveredBy lines c ∧ 0 ≤ r ∧ r < g.size0
      then (g.data l).map (fun _ => (none : Val)) else cellValue g l r c := by
  induction lines generalizing g with
  | nil =>
      simp [applyLines1, coveredBy]
  | cons a rest ih =>
      have h1 : applyLines1 g (a :: rest) = applyLines1 (clearRows g a.1 a.2) rest := rfl
      rw [h1, ih]
      have hb : (clearRows g a.1 a.2).basicLayers = g.basicLayers := rfl
      have hs : (clearRows g a.1 a.2).size0 = g.size0 := rfl
      have hm : ((clearRows g a.1 a.2).data l).map (fun _ => (none : Val))
          = (g.data l).map (fun _ => (none : Val)) := clearBlockBasic_mapNone g 0 a.1 g.size0 a.2 l
      rw [hb, hs, hm]
      have hc : cellValue (clearRows g a.1 a.2) l r c =
          if l ∈ g.basicLayers ∧ 0 ≤ r ∧ r < 0 + g.size0 ∧ a.1 ≤ c ∧ c < a.1 + a.2
          then (g.data l).map (fun _ => (none : Val)) else cellValue g l r c :=
        cellValue_clearBlockBasic g 0 a.1 g.size0 a.2 l r c
      rw [hc]
      simp only [coveredBy_cons, zero_add]
      split_ifs <;> first | rfl | tauto

theorem coveredBy_nil_iff (r : ℤ) : coveredBy [] r ↔ False := by
  simp [coveredBy]

theorem moveAxisLines_pos (d n s : ℤ) (hn : 0 < n) (hd0 : 0 < d) (hd : |d| < n)
    (hs : 0 ≤ s) (hsn : s < n) :
    moveAxisLines d n s =
      if s + d ≤ n then [(s, d)] else [(s, n - s), (0, d - (n - s))] := by
  have habs : |d| = d := abs_of_pos hd0
  have hsmod : s % n = s := Int.emod_eq_of_lt hs hsn
  unfold moveAxisLines
  rw [if_neg (by omega : ¬ d = 0), if_neg (by omega : ¬ n ≤ |d|)]
  simp only [if_pos hd0]
  norm_num [mapIndexWithinRange, hsmod, habs]

theorem moveAxisLines_neg (d n s : ℤ) (hn : 0 < n) (hd0 : d < 0) (hd : |d| < n)
    (hs : 0 ≤ s) (hsn : s < n) :
    moveAxisLines d n s =
      (if (s + d) % n + -d ≤ n
       then [((s + d) % n, -d)]
       else [((s + d) % n, n - (s + d) % n), (0, -d - (n - (s + d) % n))]) := by
  have habs : |d| = -d := abs_of_neg hd0
  unfold moveAxisLines
  rw [if_neg (by omega : ¬ d = 0), if_neg (by omega : ¬ n ≤ |d|)]
  simp only [if_neg (by omega : ¬ (0:ℤ) < d)]
  norm_num [mapIndexWithinRange, habs]

theorem moveAxisLines_cover (d n s r : ℤ) (hn : 0 < n) (hd : |d| < n)
    (hs : 0 ≤ s) (hsn : s < n) (hr : 0 ≤ r) (hrn : r < n) :
    coveredBy (moveAxisLines d n s) r ↔
      (0 < d ∧ n - d ≤ (r - s - d) % n) ∨ (d < 0 ∧ (r - s - d) % n < -d) := by
  have hd3 := abs_lt.mp hd
  have hm : (r - s - d) % n
      = if r - s - d < -n then r - s - d + 2*n
        else if r - s - d < 0 then r - s - d + n
        else if r - s - d < n then r - s - d else r - s - d - n :=
    emod_window (r - s - d) n hn (by omega) (by omega)
  rcases lt_trichotomy d 0 with hd0 | hd0 | hd0
  · have hsd : (s + d) % n
        = if s + d < -n then s + d + 2*n
          else if s + d < 0 then s + d + n
          else if s + d < n then s + d else s + d - n :=
      emod_window (s + d) n hn (by omega) (by omega)
    rw [moveAxisLines_neg d n s hn hd0 hd hs hsn]
    by_cases hw : (s + d) % n + -d ≤ n
    · rw [if_pos hw]
      rw [hsd] at hw
      rw [hm, hsd]
      simp only [coveredBy_cons, coveredBy_nil_iff, or_false]
      split_ifs at hw ⊢ <;> omega
    · rw [if_neg hw]
      rw [hsd] at hw
      rw [hm, hsd]
      simp only [coveredBy_cons, coveredBy_nil_iff, or_false]
      split_ifs at hw ⊢ <;> omega
  · subst hd0
    unfold moveAxisLines
    rw [if_pos rfl]
    simp [coveredBy_nil_iff]
  · rw [moveAxisLines_pos d n s hn hd0 hd hs hsn]
    by_cases hw : s + d ≤ n
    · rw [if_pos hw]
      rw [hm]
      simp only [coveredBy_cons, coveredBy_nil_iff, or_false]
      split_ifs <;> omega
    · rw [if_neg hw]
      rw [hm]
      simp only [coveredBy_cons, coveredBy_nil_iff, or_false]
      split_ifs <;> omega

theorem sub_emod_emod (i x n : ℤ) : (i - x % n) % n = (i - x) % n := by
  conv_lhs => rw [Int.sub_emod]
  rw [Int.emod_emod_of_dvd x dvd_rfl, ← Int.sub_emod]

theorem withinAxis_shifted_iff (c L res : ℚ) (n d ℓ : ℤ) (hres : 0 < res)
    (hL : L = (n:ℚ) * res) (h0 : 0 ≤ ℓ) (h1 : ℓ < n) :
    withinAxis ((c + (d:ℚ)*res) - L/2 + res*((ℓ:ℚ) + 1/2)) L c = true
      ↔ (0 ≤ d + ℓ ∧ d + ℓ < n) := by
  simp only [withinAxis, Bool.and_eq_true, decide_eq_true_eq]
  constructor
  · rintro ⟨ha, hb⟩
    constructor
    · by_contra hc
      push_neg at hc
      have h2 : d + ℓ ≤ -1 := by omega
      have hq : ((d:ℚ) + (ℓ:ℚ)) ≤ -1 := by exact_mod_cast h2
      nlinarith
    · by_contra hc
      push_neg at hc
      have hq : ((n:ℚ)) ≤ (d:ℚ) + (ℓ:ℚ) := by exact_mod_cast hc
      nlinarith
  · rintro ⟨ha, hb⟩
    have hqa : (0:ℚ) ≤ (d:ℚ) + (ℓ:ℚ) := by exact_mod_cast ha
    have hqb : (d:ℚ) + (ℓ:ℚ) + 1 ≤ (n:ℚ) := by exact_mod_cast (by omega : d + ℓ + 1 ≤ n)
    constructor <;> nlinarith

theorem applyLines0_mapNone (lines : List (ℤ × ℤ)) (g : GridMap) (l : String) :
    ((applyLines0 g lines).data l).map (fun _ => (none : Val))
      = (g.data l).map (fun _ => (none : Val)) := by
  induction lines generalizing g with
  | nil => rfl
  | cons a rest ih =>
      have h1 : applyLines0 g (a :: rest) = applyLines0 (clearCols g a.1 a.2) rest := rfl
      rw [h1, ih (clearCols g a.1 a.2)]
      exact clearBlockBasic_mapNone g a.1 0 a.2 g.size1 l

theorem applyLines1_mapNone (lines : List (ℤ × ℤ)) (g : GridMap) (l : String) :
    ((applyLines1 g lines).data l).map (fun _ => (none : Val))
      = (g.data l).map (fun _ => (none : Val)) := by
  induction lines generalizing g with
  | nil => rfl
  | cons a rest ih =>
      have h1 : applyLines1 g (a :: rest) = applyLines1 (clearRows g a.1 a.2) rest := rfl
      rw [h1, ih (clearRows g a.1 a.2)]
      exact clearBlockBasic_mapNone g 0 a.1 g.size0 a.2 l

theorem moveClear0_mapNone (g : GridMap) (d : ℤ) (l : String) :
    ((moveClear0 g d).data l).map (fun _ => (none : Val))
      = (g.data l).map (fun _ => (none : Val)) := by
  unfold moveClear0
  split_ifs
  · rfl
  · exact clearAll_mapNone g l
  · exact applyLines0_mapNone _ g l

theorem moveClear1_mapNone (g : GridMap) (d : ℤ) (l : String) :
    ((moveClear1 g d).data l).map (fun _ => (none : Val))
      = (g.data l).map (fun _ => (none : Val)) := by
  unfold moveClear1
  split_ifs
  · rfl
  · exact clearAll_mapNone g l
  · exact applyLines1_mapNone _ g l

theorem cellValue_moveClear0 (g : GridMap) (d : ℤ) (l : String) (r c : ℤ)
    (hdn : |d| < g.size0) :
    cellValue (moveClear0 g d) l r c =
      if l ∈ g.basicLayers ∧ coveredBy (moveAxisLines d g.size0 g.startIndex0) r
           ∧ 0 ≤ c ∧ c < g.size1
      then (g.data l).map (fun _ => (none : Val)) else cellValue g l r c := by
  unfold moveClear0
  by_cases h1 : d = 0
  · subst h1
    rw [if_pos rfl]
    have hml : moveAxisLines 0 g.size0 g.startIndex0 = [] := by
      unfold moveAxisLines
      rw [if_pos rfl]
    rw [hml]
    rw [if_neg (by simp [coveredBy_nil_iff])]
  · rw [if_neg h1, if_neg (by omega : ¬ g.size0 ≤ |d|)]
    exact cellValue_applyLines0 _ g l r c

theorem cellValue_moveClear1 (g : GridMap) (d : ℤ) (l : String) (r c : ℤ)
    (hdn : |d| < g.size1) :
    cellValue (moveClear1 g d) l r c =
      if l ∈ g.basicLayers ∧ coveredBy (moveAxisLines d g.size1 g.startIndex1) c
           ∧ 0 ≤ r ∧ r < g.size0
      then (g.data l).map (fun _ => (none : Val)) else cellValue g l r c := by
  unfold moveClear1
  by_cases h1 : d = 0
  · subst h1
    rw [if_pos rfl]
    have hml : moveAxisLines 0 g.size1 g.startIndex1 = [] := by
      unfold moveAxisLines
      rw [if_pos rfl]
    rw [hml]
    rw [if_neg (by simp [coveredBy_nil_iff])]
  · rw [if_neg h1, if_neg (by omega : ¬ g.size1 ≤ |d|)]
    exact cellValue_applyLines1 _ g l r c

theorem move_map_data (g : GridMap) (p0 p1 : ℚ) :
    (move g p0 p1).map.data
      = (moveClear1 (moveClear0 g (moveIndexShift0 g p0)) (moveIndexShift1 g p1)).data := rfl

theorem move_map_fields (g : GridMap) (p0 p1 : ℚ) :
    (move g p0 p1).map.size0 = g.size0 ∧
    (move g p0 p1).map.size1 = g.size1 ∧
    (move g p0 p1).map.length0 = g.length0 ∧
    (move g p0 p1).map.length1 = g.length1 ∧
    (move g p0 p1).map.resolution = g.resolution ∧
    (move g p0 p1).map.basicLayers = g.basicLayers ∧
    (move g p0 p1).map.layers = g.layers ∧
    (move g p0 p1).map.pos0 = g.pos0 + ((moveIndexShift0 g p0 : ℤ) : ℚ) * g.resolution ∧
    (move g p0 p1).map.pos1 = g.pos1 + ((moveIndexShift1 g p1 : ℤ) : ℚ) * g.resolution ∧
    (move g p0 p1).map.startIndex0 = (g.startIndex0 + moveIndexShift0 g p0) % g.size0 ∧
    (move g p0 p1).map.startIndex1 = (g.startIndex1 + moveIndexShift1 g p1) % g.size1 := by
  have hshape : sameShape g (moveClear1 (moveClear0 g (moveIndexShift0 g p0)) (moveIndexShift1 g p1)) :=
    sameShape_trans (moveClear0_shape g (moveIndexShift0 g p0))
      (moveClear1_shape (moveClear0 g (moveIndexShift0 g p0)) (moveIndexShift1 g p1))
  obtain ⟨e1, e2, e3, e4, e5, e6, e7, e8, e9, e10, e11⟩ := hshape
  unfold move
  dsimp only
  unfold getPositionShiftFromIndexShift mapIndexWithinRange
  refine ⟨e3.symm, e4.symm, e6.symm, e7.symm, e5.symm, e2.symm, e1.symm, ?_, ?_, ?_, ?_⟩
  · rw [← e8]
  · rw [← e9]
  · rw [← e10, ← e3]
  · rw [← e11, ← e4]

/-- C1: after a `move` whose per-axis index shift is strictly smaller in
magnitude than the map size, every basic-layer cell whose world position
(computed on the post-move map) lies outside the previous window holds
the invalid sentinel, and every cell of every layer whose world position
lies inside the previous window (it is always inside the new window)
retains its prior value. -/
theorem C1_move_invalidation (g : GridMap) (p0 p1 : ℚ) (l : String) (i j : ℤ)
    (hres : 0 < g.resolution)
    (hL0 : g.length0 = (g.size0 : ℚ) * g.resolution)
    (hL1 : g.length1 = (g.size1 : ℚ) * g.resolution)
    (hs0 : 0 ≤ g.startIndex0) (hs0n : g.startIndex0 < g.size0)
    (hs1 : 0 ≤ g.startIndex1) (hs1n : g.startIndex1 < g.size1)
    (hd0 : |moveIndexShift0 g p0| < g.size0)
    (hd1 : |moveIndexShift1 g p1| < g.size1)
    (hi : 0 ≤ i) (hin : i < g.size0) (hj : 0 ≤ j) (hjn : j < g.size1) :
    (checkIfPositionWithinMap (cellPositionAfterMove0 g p0 p1 i)
        (cellPositionAfterMove1 g p0 p1 j) g.length0 g.length1 g.pos0 g.pos1 = false →
      l ∈ g.basicLayers →
      cellValue (move g p0 p1).map l i j = (g.data l).map (fun _ => (none : Val))) ∧
    (checkIfPositionWithinMap (cellPositionAfterMove0 g p0 p1 i)
        (cellPositionAfterMove1 g p0 p1 j) g.length0 g.length1 g.pos0 g.pos1 = true →
      cellValue (move g p0 p1).map l i j = cellValue g l i j) := by
  obtain ⟨f1, f2, f3, f4, f5, f6, f7, f8, f9, f10, f11⟩ := move_map_fields g p0 p1
  have hN0 : 0 < g.size0 := by omega
  have hN1 : 0 < g.size1 := by omega
  set d0 := moveIndexShift0 g p0 with hd0def
  set d1 := moveIndexShift1 g p1 with hd1def
  set L0 := (i - g.startIndex0 - d0) % g.size0 with hL0def
  set L1 := (j - g.startIndex1 - d1) % g.size1 with hL1def
  have hLb0 : 0 ≤ L0 ∧ L0 < g.size0 := emod_mem _ _ hN0
  have hLb1 : 0 ≤ L1 ∧ L1 < g.size1 := emod_mem _ _ hN1
  have habs0 := abs_lt.mp hd0
  have habs1 := abs_lt.mp hd1
  have hpos0 : cellPositionAfterMove0 g p0 p1 i
      = (g.pos0 + (d0:ℚ) * g.resolution) - g.length0/2
        + g.resolution * (((L0 : ℤ) : ℚ) + 1/2) := by
    unfold cellPositionAfterMove0 getPositionFromIndexAxis mapIndexWithinRange
    rw [f1, f3, f5, f8, f10]
    rw [sub_emod_emod i (g.startIndex0 + d0) g.size0]
    rw [show i - (g.startIndex0 + d0) = i - g.startIndex0 - d0 by ring]
  have hpos1 : cellPositionAfterMove1 g p0 p1 j
      = (g.pos1 + (d1:ℚ) * g.resolution) - g.length1/2
        + g.resolution * (((L1 : ℤ) : ℚ) + 1/2) := by
    unfold cellPositionAfterMove1 getPositionFromIndexAxis mapIndexWithinRange
    rw [f2, f4, f5, f9, f11]
    rw [sub_emod_emod j (g.startIndex1 + d1) g.size1]
    rw [show j - (g.startIndex1 + d1) = j - g.startIndex1 - d1 by ring]
  have hw0 : withinAxis (cellPositionAfterMove0 g p0 p1 i) g.length0 g.pos0 = true
      ↔ (0 ≤ d0 + L0 ∧ d0 + L0 < g.size0) := by
    rw [hpos0]
    exact withinAxis_shifted_iff g.pos0 g.length0 g.resolution g.size0 d0 L0 hres hL0
      hLb0.1 hLb0.2
  have hw1 : withinAxis (cellPositionAfterMove1 g p0 p1 j) g.length1 g.pos1 = true
      ↔ (0 ≤ d1 + L1 ∧ d1 + L1 < g.size1) := by
    rw [hpos1]
    exact withinAxis_shifted_iff g.pos1 g.length1 g.resolution g.size1 d1 L1 hres hL1
      hLb1.1 hLb1.2
  have hcov0 : coveredBy (moveAxisLines d0 g.size0 g.startIndex0) i
      ↔ ¬ (0 ≤ d0 + L0 ∧ d0 + L0 < g.size0) := by
    rw [moveAxisLines_cover d0 g.size0 g.startIndex0 i hN0 hd0 hs0 hs0n hi hin]
    omega
  have hcov1 : coveredBy (moveAxisLines d1 g.size1 g.startIndex1) j
      ↔ ¬ (0 ≤ d1 + L1 ∧ d1 + L1 < g.size1) := by
    rw [moveAxisLines_cover d1 g.size1 g.startIndex1 j hN1 hd1 hs1 hs1n hj hjn]
    omega
  obtain ⟨s1, s2, s3, s4, s5, s6, s7, s8, s9, s10, s11⟩ := moveClear0_shape g d0
  have hcell : cellValue (move g p0 p1).map l i j
      = (if l ∈ g.basicLayers ∧ coveredBy (moveAxisLines d1 g.size1 g.startIndex1) j
             ∧ 0 ≤ i ∧ i < g.size0
         then (g.data l).map (fun _ => (none : Val))
         else if l ∈ g.basicLayers ∧ coveredBy (moveAxisLines d0 g.size0 g.startIndex0) i
             ∧ 0 ≤ j ∧ j < g.size1
         then (g.data l).map (fun _ => (none : Val))
         else cellValue g l i j) := by
    have hgd : cellValue (move g p0 p1).map l i j
        = cellValue (moveClear1 (moveClear0 g d0) d1) l i j := by
      unfold cellValue
      rw [move_map_data]
    rw [hgd]
    rw [cellValue_moveClear1 (moveClear0 g d0) d1 l i j (by rw [← s4]; exact hd1)]
    rw [← s2, ← s4, ← s3, ← s11]
    rw [moveClear0_mapNone g d0 l]
    rw [cellValue_moveClear0 g d0 l i j hd0]
  constructor
  · intro h hl
    have hor : ¬ (0 ≤ d0 + L0 ∧ d0 + L0 < g.size0)
        ∨ ¬ (0 ≤ d1 + L1 ∧ d1 + L1 < g.size1) := by
      unfold checkIfPositionWithinMap at h
      rcases Bool.and_eq_false_iff.mp h with hf | hf
      · left
        intro hcon
        rw [hw0.mpr hcon] at hf
        exact Bool.noConfusion hf
      · right
        intro hcon
        rw [hw1.mpr hcon] at hf
        exact Bool.noConfusion hf
    rw [hcell]
    rcases hor with hnp | hnp
    · by_cases hcv1 : coveredBy (moveAxisLines d1 g.size1 g.startIndex1) j
      · rw [if_pos ⟨hl, hcv1, hi, hin⟩]
      · rw [if_neg (by tauto), if_pos ⟨hl, hcov0.mpr hnp, hj, hjn⟩]
    · rw [if_pos ⟨hl, hcov1.mpr hnp, hi, hin⟩]
  · intro h
    have hp : (0 ≤ d0 + L0 ∧ d0 + L0 < g.size0) ∧ (0 ≤ d1 + L1 ∧ d1 + L1 < g.size1) := by
      unfold checkIfPositionWithinMap at h
      simp only [Bool.and_eq_true] at h
      exact ⟨hw0.mp h.1, hw1.mp h.2⟩
    rw [hcell]
    rw [if_neg (fun hcon => (hcov1.mp hcon.2.1) hp.2)]
    rw [if_neg (fun hcon => (hcov0.mp hcon.2.1) hp.1)]

/-- Witness for C1: on the 3 × 3 example grid, a pan by one cell leaves
buffer cell (0,0) outside the old window, and the basic layer holds the
sentinel there. -/
theorem C1_move_invalidation_witness :
    cellValue (move gEx 1 0).map "a" 0 0 = (gEx.data "a").map (fun _ => (none : Val)) :=
  (C1_move_invalidation gEx 1 0 "a" 0 0 (by norm_num [gEx]) (by norm_num [gEx])
    (by norm_num [gEx]) (by norm_num [gEx]) (by norm_num [gEx]) (by norm_num [gEx])
    (by norm_num [gEx])
    (by norm_num [moveIndexShift0, getIndexShiftFromPositionShift, roundAway, gEx])
    (by norm_num [moveIndexShift1, getIndexShiftFromPositionShift, roundAway, gEx])
    (by norm_num) (by norm_num [gEx]) (by norm_num) (by norm_num [gEx])).1
    (by norm_num [checkIfPositionWithinMap, withinAxis, cellPositionAfterMove0,
      cellPositionAfterMove1, getPositionFromIndexAxis, move, moveClear0, moveClear1,
      moveIndexShift0, moveIndexShift1, getIndexShiftFromPositionShift,
      getPositionShiftFromIndexShift, roundAway, mapIndexWithinRange, moveAxisLines,
      applyLines0, applyLines1, clearCols, clearRows, clearBlockBasic, setBlockNaN, gEx])
    (by simp [gEx])

/-- C10: `isValid(index, layers)` with an empty layer list returns false
rather than vacuous truth, and on a grid whose basic-layer set is empty
`isValid(index)` returns false for every index. -/
theorem C10_isValid_empty (g : GridMap) (i j : ℤ) (h : g.basicLayers = []) :
    isValidGM g i j [] = false ∧ isValidBasicGM g i j = false := by
  constructor
  · rfl
  · unfold isValidBasicGM
    rw [h]
    rfl

/-- Witness for C10 on the basic-layer-free example grid. -/
theorem C10_isValid_empty_witness :
    isValidGM gNB 0 0 [] = false ∧ isValidBasicGM gNB 0 0 = false :=
  C10_isValid_empty gNB 0 0 rfl

/-- C7: after `setGeometry(length, resolution, position)` with positive
arguments, the size is `round(length / resolution)` per axis, every
layer's buffer has those dimensions with every cell invalid, the start
index is zero, the stored length is `size * resolution`, and the stored
position is the given one. -/
theorem C7_setGeometry (g : GridMap) (len0 len1 res p0 p1 : ℚ)
    (h0 : 0 < len0) (h1 : 0 < len1) (hr : 0 < res) :
    (setGeometry g len0 len1 res p0 p1).size0 = roundAway (len0 / res) ∧
    (setGeometry g len0 len1 res p0 p1).size1 = roundAway (len1 / res) ∧
    (∀ l m, (setGeometry g len0 len1 res p0 p1).data l = some m →
      m.rows = roundAway (len0 / res) ∧ m.cols = roundAway (len1 / res) ∧
      ∀ i j, m.entry i j = none) ∧
    (setGeometry g len0 len1 res p0 p1).startIndex0 = 0 ∧
    (setGeometry g len0 len1 res p0 p1).startIndex1 = 0 ∧
    (setGeometry g len0 len1 res p0 p1).length0
      = (((setGeometry g len0 len1 res p0 p1).size0 : ℤ) : ℚ) * res ∧
    (setGeometry g len0 len1 res p0 p1).length1
      = (((setGeometry g len0 len1 res p0 p1).size1 : ℤ) : ℚ) * res ∧
    (setGeometry g len0 len1 res p0 p1).pos0 = p0 ∧
    (setGeometry g len0 len1 res p0 p1).pos1 = p1 := by
  refine ⟨rfl, rfl, ?_, rfl, rfl, rfl, rfl, rfl, rfl⟩
  intro l m hm
  unfold setGeometry clearAll resize at hm
  dsimp only at hm
  cases hd : g.data l with
  | none =>
      rw [hd] at hm
      exact absurd hm (by simp)
  | some m0 =>
      rw [hd] at hm
      cases Option.some.inj hm
      exact ⟨rfl, rfl, fun i j => rfl⟩

/-- Witness for C7 at a concrete geometry (length 5/2 rounds to 3 cells). -/
theorem C7_setGeometry_witness :
    (setGeometry gEx (5/2) 2 1 1 2).size0 = roundAway ((5/2) / 1) :=
  (C7_setGeometry gEx (5/2) 2 1 1 2 (by norm_num) (by norm_num) (by norm_num)).1

/-- C9: `move` to the grid's current position reports `moved = false` and
leaves the entire state unchanged. -/
theorem C9_noop_move (g : GridMap)
    (hs0 : 0 ≤ g.startIndex0) (hs0n : g.startIndex0 < g.size0)
    (hs1 : 0 ≤ g.startIndex1) (hs1n : g.startIndex1 < g.size1) :
    (move g g.pos0 g.pos1).moved = false ∧ (move g g.pos0 g.pos1).map = g := by
  have hd0 : moveIndexShift0 g g.pos0 = 0 := by
    unfold moveIndexShift0 getIndexShiftFromPositionShift
    rw [sub_self, zero_div, roundAway_zero]
  have hd1 : moveIndexShift1 g g.pos1 = 0 := by
    unfold moveIndexShift1 getIndexShiftFromPositionShift
    rw [sub_self, zero_div, roundAway_zero]
  have hm0 : moveClear0 g 0 = g := by
    unfold moveClear0
    rw [if_pos rfl]
  have hm1 : moveClear1 g 0 = g := by
    unfold moveClear1
    rw [if_pos rfl]
  constructor
  · unfold move
    dsimp only
    rw [hd0, hd1]
    simp
  · unfold move
    dsimp only
    rw [hd0, hd1, hm0, hm1]
    unfold mapIndexWithinRange getPositionShiftFromIndexShift
    apply GridMap.ext <;>
      first
        | rfl
        | simp [Int.emod_eq_of_lt hs0 hs0n, Int.emod_eq_of_lt hs1 hs1n]

/-- Witness for C9 on the example grid. -/
theorem C9_noop_move_witness :
    (move gEx gEx.pos0 gEx.pos1).moved = false ∧ (move gEx gEx.pos0 gEx.pos1).map = gEx :=
  C9_noop_move gEx (by norm_num [gEx]) (by norm_num [gEx]) (by norm_num [gEx])
    (by norm_num [gEx])

theorem axis_round_trip (c L res : ℚ) (n s b : ℤ) (hres : 0 < res)
    (hL : L = (n:ℚ) * res) (hs : 0 ≤ s) (hsn : s < n) (hb : 0 ≤ b) (hbn : b < n) :
    withinAxis (getPositionFromIndexAxis b c L res n s) L c = true ∧
    getIndexFromPositionAxis (getPositionFromIndexAxis b c L res n s) c L res n s = b := by
  have hn : 0 < n := by omega
  set l := (b - s) % n with hldef
  have hlb : 0 ≤ l ∧ l < n := emod_mem _ _ hn
  have hpos : getPositionFromIndexAxis b c L res n s = (c - L/2) + res * ((l:ℚ) + 1/2) := rfl
  constructor
  · rw [hpos]
    simp only [withinAxis, Bool.and_eq_true, decide_eq_true_eq]
    have h1 : (0:ℚ) ≤ (l:ℚ) := by exact_mod_cast hlb.1
    have h2 : (l:ℚ) + 1 ≤ (n:ℚ) := by exact_mod_cast (by omega : l + 1 ≤ n)
    constructor <;> nlinarith
  · rw [hpos]
    unfold getIndexFromPositionAxis mapIndexWithinRange
    have hdiv : ((c - L/2) + res * ((l:ℚ) + 1/2) - (c - L/2)) / res = (l:ℚ) + 1/2 := by
      field_simp
      ring
    rw [hdiv]
    have hfl : ⌊(l:ℚ) + 1/2⌋ = l := by
      rw [Int.floor_int_add]
      norm_num
    rw [hfl, hldef, Int.emod_add_emod, show b - s + s = b by ring]
    exact Int.emod_eq_of_lt hb hbn

/-- C2: for every in-range index, any positive resolution and any
in-range start index, converting the index to its cell-center position
and back yields the original index. -/
theorem C2_round_trip (g : GridMap) (i j : ℤ)
    (hres : 0 < g.resolution)
    (hL0 : g.length0 = (g.size0 : ℚ) * g.resolution)
    (hL1 : g.length1 = (g.size1 : ℚ) * g.resolution)
    (hs0 : 0 ≤ g.startIndex0) (hs0n : g.startIndex0 < g.size0)
    (hs1 : 0 ≤ g.startIndex1) (hs1n : g.startIndex1 < g.size1)
    (hi : 0 ≤ i) (hin : i < g.size0) (hj : 0 ≤ j) (hjn : j < g.size1) :
    (getPositionGM g i j).bind (fun p => getIndexGM g p.1 p.2) = some (i, j) := by
  obtain ⟨hw0, hx0⟩ := axis_round_trip g.pos0 g.length0 g.resolution g.size0 g.startIndex0 i
    hres hL0 hs0 hs0n hi hin
  obtain ⟨hw1, hx1⟩ := axis_round_trip g.pos1 g.length1 g.resolution g.size1 g.startIndex1 j
    hres hL1 hs1 hs1n hj hjn
  unfold getPositionGM
  rw [if_pos ⟨hi, hin, hj, hjn⟩]
  show getIndexGM g _ _ = some (i, j)
  unfold getIndexGM checkIfPositionWithinMap
  rw [hw0, hw1, hx0, hx1]
  simp

/-- Witness for C2 at index (1, 2) of the example grid. -/
theorem C2_round_trip_witness :
    (getPositionGM gEx 1 2).bind (fun p => getIndexGM gEx p.1 p.2) = some (1, 2) :=
  C2_round_trip gEx 1 2 (by norm_num [gEx]) (by norm_num [gEx]) (by norm_num [gEx])
    (by norm_num [gEx]) (by norm_num [gEx]) (by norm_num [gEx]) (by norm_num [gEx])
    (by norm_num) (by norm_num [gEx]) (by norm_num) (by norm_num [gEx])

/-- Counterexample for C6: the public operation `setStartIndex` stores an
out-of-range start index verbatim, so afterwards startIndex is not in
`[0, size)`. -/
theorem C6_startIndex_counterexample :
    (setStartIndex gEx 5 0).startIndex0 = 5 ∧ (setStartIndex gEx 5 0).size0 = 3 ∧
    ¬ ((setStartIndex gEx 5 0).startIndex0 < (setStartIndex gEx 5 0).size0) := by
  refine ⟨rfl, rfl, ?_⟩
  norm_num [setStartIndex, gEx]

theorem cellValue_moveClear1_allNone (h2 : GridMap) (d : ℤ) (l : String) (i j : ℤ)
    (hall : cellValue h2 l i j = (h2.data l).map (fun _ => (none : Val))) :
    cellValue (moveClear1 h2 d) l i j = (h2.data l).map (fun _ => (none : Val)) := by
  unfold moveClear1
  split_ifs
  · exact hall
  · rw [cellValue_clearAll]
  · rw [cellValue_applyLines1]
    split_ifs
    · rfl
    · exact hall

/-- C6 amended: every public operation that touches the start index other
than `setStartIndex` leaves it in range — `setGeometry` zeroes it, `move`
reduces it modulo the (positive) size, a submap has start index zero, and
`clearAll`, `add` and `erase` do not modify it; `setStartIndex` itself
stores the caller's value verbatim with no reduction. -/
theorem C6_startIndex_amended (g : GridMap) (p0 p1 len0 len1 res q0 q1 pc0 pc1 lr0 lr1 : ℚ)
    (a0 a1 : ℤ) (l : String) (m : GMatrix)
    (hp0 : 0 < g.size0) (hp1 : 0 < g.size1) :
    (setGeometry g len0 len1 res q0 q1).startIndex0 = 0 ∧
    (setGeometry g len0 len1 res q0 q1).startIndex1 = 0 ∧
    (0 ≤ (move g p0 p1).map.startIndex0 ∧ (move g p0 p1).map.startIndex0 < g.size0) ∧
    (0 ≤ (move g p0 p1).map.startIndex1 ∧ (move g p0 p1).map.startIndex1 < g.size1) ∧
    (getSubmapGM g pc0 pc1 lr0 lr1).submap.startIndex0 = 0 ∧
    (getSubmapGM g pc0 pc1 lr0 lr1).submap.startIndex1 = 0 ∧
    (clearAll g).startIndex0 = g.startIndex0 ∧ (clearAll g).startIndex1 = g.startIndex1 ∧
    (addLayer g l m).startIndex0 = g.startIndex0 ∧
    (addLayer g l m).startIndex1 = g.startIndex1 ∧
    (eraseLayer g l).1.startIndex0 = g.startIndex0 ∧
    (eraseLayer g l).1.startIndex1 = g.startIndex1 ∧
    (setStartIndex g a0 a1).startIndex0 = a0 ∧ (setStartIndex g a0 a1).startIndex1 = a1 := by
  obtain ⟨f1, f2, f3, f4, f5, f6, f7, f8, f9, f10, f11⟩ := move_map_fields g p0 p1
  refine ⟨rfl, rfl, ?_, ?_, ?_, ?_, rfl, rfl, ?_, ?_, ?_, ?_, rfl, rfl⟩
  · rw [f10]
    exact emod_mem _ _ hp0
  · rw [f11]
    exact emod_mem _ _ hp1
  · unfold getSubmapGM
    dsimp only
    split_ifs <;> rfl
  · unfold getSubmapGM
    dsimp only
    split_ifs <;> rfl
  · unfold addLayer
    split_ifs <;> rfl
  · unfold addLayer
    split_ifs <;> rfl
  · unfold eraseLayer
    dsimp only
    split_ifs <;> rfl
  · unfold eraseLayer
    dsimp only
    split_ifs <;> rfl

/-- Witness for the amended C6: the move component applied on the example
grid. -/
theorem C6_startIndex_amended_witness :
    0 ≤ (move gEx 1 0).map.startIndex0 ∧ (move gEx 1 0).map.startIndex0 < gEx.size0 :=
  (C6_startIndex_amended gEx 1 0 2 2 1 0 0 0 0 1 1 5 0 "a" matFive
    (by norm_num [gEx]) (by norm_num [gEx])).2.2.1

/-- Counterexample for C3: a full-wipe move (|indexShift| ≥ size on axis
0) invalidates the non-basic layer "x" as well — the code clears all
layers, not only the basic ones. -/
theorem C3_full_wipe_counterexample :
    gEx.size0 ≤ |moveIndexShift0 gEx 4| ∧
    ("x" ∈ gEx.basicLayers → False) ∧
    cellValue gEx "x" 0 0 = some (some 5) ∧
    cellValue (move gEx 4 0).map "x" 0 0 = some none := by
  refine ⟨?_, ?_, ?_, ?_⟩
  · norm_num [moveIndexShift0, getIndexShiftFromPositionShift, roundAway, gEx]
  · simp [gEx]
  · norm_num [cellValue, gEx, matFive]
    simp
  · norm_num [cellValue, move, moveClear0, moveClear1, moveIndexShift0, moveIndexShift1,
      getIndexShiftFromPositionShift, getPositionShiftFromIndexShift, roundAway,
      mapIndexWithinRange, moveAxisLines, applyLines0, applyLines1, clearCols, clearRows,
      clearBlockBasic, setBlockNaN, clearAll, gEx, matFive]
    simp

/-- C3 amended: when the index shift is nonzero with `|indexShift| >=
size` on some axis, `move` performs a full `clearAll`: afterwards every
cell of every layer — basic and non-basic alike — holds the invalid
sentinel. -/
theorem C3_full_wipe_amended (g : GridMap) (p0 p1 : ℚ) (l : String) (i j : ℤ)
    (h : (moveIndexShift0 g p0 ≠ 0 ∧ g.size0 ≤ |moveIndexShift0 g p0|)
       ∨ (moveIndexShift1 g p1 ≠ 0 ∧ g.size1 ≤ |moveIndexShift1 g p1|)) :
    cellValue (move g p0 p1).map l i j = (g.data l).map (fun _ => (none : Val)) := by
  have hgd : cellValue (move g p0 p1).map l i j
      = cellValue (moveClear1 (moveClear0 g (moveIndexShift0 g p0)) (moveIndexShift1 g p1)) l i j := by
    unfold cellValue
    rw [move_map_data]
  rw [hgd]
  rcases h with ⟨hne, hge⟩ | ⟨hne, hge⟩
  · have hcl : moveClear0 g (moveIndexShift0 g p0) = clearAll g := by
      unfold moveClear0
      rw [if_neg hne, if_pos hge]
    rw [hcl]
    have hall : cellValue (clearAll g) l i j
        = ((clearAll g).data l).map (fun _ => (none : Val)) := by
      rw [cellValue_clearAll, clearAll_mapNone]
    rw [cellValue_moveClear1_allNone (clearAll g) (moveIndexShift1 g p1) l i j hall]
    rw [clearAll_mapNone]
  · obtain ⟨s1, s2, s3, s4, s5, s6, s7, s8, s9, s10, s11⟩ :=
      moveClear0_shape g (moveIndexShift0 g p0)
    have hcl : moveClear1 (moveClear0 g (moveIndexShift0 g p0)) (moveIndexShift1 g p1)
        = clearAll (moveClear0 g (moveIndexShift0 g p0)) := by
      unfold moveClear1
      rw [if_neg hne, if_pos (by rw [← s4]; exact hge)]
    rw [hcl, cellValue_clearAll, moveClear0_mapNone]

/-- Witness for the amended C3 at a non-basic layer and interior cell. -/
theorem C3_full_wipe_amended_witness :
    cellValue (move gEx 4 0).map "x" 1 2 = (gEx.data "x").map (fun _ => (none : Val)) :=
  C3_full_wipe_amended gEx 4 0 "x" 1 2
    (Or.inl ⟨by norm_num [moveIndexShift0, getIndexShiftFromPositionShift, roundAway, gEx],
             by norm_num [moveIndexShift0, getIndexShiftFromPositionShift, roundAway, gEx]⟩)

/-- C4 evaluated at the failing input: a +1 row-axis shift on the 3 × 3
example grid clears buffer row 0 of the basic layer (cells (0,0), (0,1),
(0,2)) but reports the region with index (0,0) and size (3,1) — a column
band; cell (0,2) is cleared yet lies outside the reported region, and
cell (2,0) lies inside the reported region yet keeps its value. -/
theorem C4_regions_transposed :
    (move gEx 1 0).regionIndeces = [(0, 0)] ∧
    (move gEx 1 0).regionSizes = [(3, 1)] ∧
    cellValue (move gEx 1 0).map "a" 0 2 = some none ∧
    cellValue (move gEx 1 0).map "a" 2 0 = some (some 20) := by
  refine ⟨?_, ?_, ?_, ?_⟩ <;>
    norm_num [move, moveClear0, moveClear1, moveIndexShift0, moveIndexShift1,
      getIndexShiftFromPositionShift, getPositionShiftFromIndexShift, roundAway,
      mapIndexWithinRange, moveAxisLines, applyLines0, applyLines1, clearCols, clearRows,
      clearBlockBasic, setBlockNaN, cellValue, gEx, matIdx]

/-- C8: a submap request whose window does not fit entirely inside the
map reports success = false, returns the default `GridMap(layers)` with
no partial copy of layer data, and leaves the source unchanged. -/
theorem C8_submap_failure (g : GridMap) (pc0 pc1 lr0 lr1 : ℚ)
    (h : (getSubmapInfo g pc0 pc1 lr0 lr1).success = false) :
    (getSubmapGM g pc0 pc1 lr0 lr1).success = false ∧
    (getSubmapGM g pc0 pc1 lr0 lr1).submap = mkGridMap g.layers ∧
    (getSubmapGM g pc0 pc1 lr0 lr1).newSource = g := by
  unfold getSubmapGM
  dsimp only
  rw [if_pos h]
  exact ⟨rfl, rfl, rfl⟩

/-- Witness for C8: a request centered far outside the example grid. -/
theorem C8_submap_failure_witness :
    (getSubmapGM gEx 5 5 2 2).success = false ∧
    (getSubmapGM gEx 5 5 2 2).submap = mkGridMap gEx.layers ∧
    (getSubmapGM gEx 5 5 2 2).newSource = gEx :=
  C8_submap_failure gEx 5 5 2 2
    (by norm_num [getSubmapInfo, roundAway, mapIndexWithinRange, gEx])

theorem foldl_writeRegion_entry (src : GMatrix) (de : ℤ → ℤ → Val)
    (tl0 tl1 n0 n1 N0 N1 u v : ℤ)
    (htl0 : 0 ≤ tl0) (htl0n : tl0 < N0) (htl1 : 0 ≤ tl1) (htl1n : tl1 < N1)
    (hn0 : n0 ≤ N0) (hn1 : n1 ≤ N1)
    (hu : 0 ≤ u) (hun : u < n0) (hv : 0 ≤ v) (hvn : v < n1) :
    ((getBufferRegionsForSubmap tl0 tl1 n0 n1 N0 N1).foldl
        (fun d reg => writeRegion d src reg) ⟨n0, n1, de⟩).entry u v
      = src.entry (if tl0 + u < N0 then tl0 + u else tl0 + u - N0)
                  (if tl1 + v < N1 then tl1 + v else tl1 + v - N1) := by
  unfold getBufferRegionsForSubmap
  by_cases hw0 : tl0 + n0 ≤ N0 <;> by_cases hw1 : tl1 + n1 ≤ N1
  · rw [if_pos hw0, if_pos hw1]
    simp only [List.foldl_cons, List.foldl_nil]
    unfold writeRegion
    dsimp only
    split_ifs <;>
      first
        | rfl
        | (exfalso; omega)
        | (congr 1 <;> first | omega | (congr 1 <;> omega))
  · rw [if_pos hw0, if_neg hw1]
    simp only [List.foldl_cons, List.foldl_nil]
    unfold writeRegion
    dsimp only
    split_ifs <;>
      first
        | rfl
        | (exfalso; omega)
        | (congr 1 <;> first | omega | (congr 1 <;> omega))
  · rw [if_neg hw0, if_pos hw1]
    simp only [List.foldl_cons, List.foldl_nil]
    unfold writeRegion
    dsimp only
    split_ifs <;>
      first
        | rfl
        | (exfalso; omega)
        | (congr 1 <;> first | omega | (congr 1 <;> omega))
  · rw [if_neg hw0, if_neg hw1]
    simp only [List.foldl_cons, List.foldl_nil]
    unfold writeRegion
    dsimp only
    split_ifs <;>
      first
        | rfl
        | (exfalso; omega)
        | (congr 1 <;> first | omega | (congr 1 <;> omega))

theorem submap_axis (c L res q : ℚ) (N off n : ℤ)
    (hres : 0 < res) (hL : L = (N:ℚ)*res)
    (hoff : 0 ≤ off) (hoffn : off + n ≤ N)
    (hq : withinAxis q ((n:ℚ)*res) ((c - L/2) + (off:ℚ)*res + (n:ℚ)*res/2) = true) :
    (0 ≤ ⌊(q - ((c - L/2) + (off:ℚ)*res)) / res⌋
      ∧ ⌊(q - ((c - L/2) + (off:ℚ)*res)) / res⌋ < n)
    ∧ withinAxis q L c = true
    ∧ ⌊(q - (c - L/2)) / res⌋ = off + ⌊(q - ((c - L/2) + (off:ℚ)*res)) / res⌋ := by
  simp only [withinAxis, Bool.and_eq_true, decide_eq_true_eq] at hq
  obtain ⟨hq1, hq2⟩ := hq
  have htl1 : 0 ≤ q - ((c - L/2) + (off:ℚ)*res) := by linarith
  have htl2 : q - ((c - L/2) + (off:ℚ)*res) < (n:ℚ)*res := by linarith
  have hoffq : (0:ℚ) ≤ (off:ℚ) := by exact_mod_cast hoff
  have hoffnq : (off:ℚ) + (n:ℚ) ≤ (N:ℚ) := by exact_mod_cast hoffn
  have hub : 0 ≤ ⌊(q - ((c - L/2) + (off:ℚ)*res)) / res⌋
      ∧ ⌊(q - ((c - L/2) + (off:ℚ)*res)) / res⌋ < n := by
    constructor
    · exact Int.floor_nonneg.mpr (div_nonneg htl1 (le_of_lt hres))
    · rw [Int.floor_lt]
      rw [div_lt_iff hres]
      push_cast
      linarith
  refine ⟨hub, ?_, ?_⟩
  · simp only [withinAxis, Bool.and_eq_true, decide_eq_true_eq]
    constructor
    · nlinarith
    · nlinarith
  · have harg : q - (c - L/2) = (q - ((c - L/2) + (off:ℚ)*res)) + (off:ℚ)*res := by ring
    rw [harg, add_div, mul_div_cancel_right₀ _ (ne_of_gt hres), Int.floor_add_int]
    omega

theorem submapAssembled_fields (g : GridMap) (info : SubmapInfo) :
    (submapAssembled g info).size0 = roundAway (info.len0 / g.resolution) ∧
    (submapAssembled g info).size1 = roundAway (info.len1 / g.resolution) ∧
    (submapAssembled g info).length0
      = ((roundAway (info.len0 / g.resolution) : ℤ) : ℚ) * g.resolution ∧
    (submapAssembled g info).length1
      = ((roundAway (info.len1 / g.resolution) : ℤ) : ℚ) * g.resolution ∧
    (submapAssembled g info).resolution = g.resolution ∧
    (submapAssembled g info).pos0 = info.pos0 ∧
    (submapAssembled g info).pos1 = info.pos1 ∧
    (submapAssembled g info).startIndex0 = 0 ∧
    (submapAssembled g info).startIndex1 = 0 :=
  ⟨rfl, rfl, rfl, rfl, rfl, rfl, rfl, rfl, rfl⟩

theorem submapAssembled_data (g : GridMap) (info : SubmapInfo) (l : String)
    (hlay : l ∈ g.layers) (srcM : GMatrix) (hsrc : g.data l = some srcM) :
    (submapAssembled g info).data l
      = some ((getBufferRegionsForSubmap info.topLeft0 info.topLeft1
            (roundAway (info.len0 / g.resolution)) (roundAway (info.len1 / g.resolution))
            g.size0 g.size1).foldl (fun d reg => writeRegion d srcM reg)
          ⟨roundAway (info.len0 / g.resolution), roundAway (info.len1 / g.resolution),
            fun _ _ => none⟩) := by
  unfold submapAssembled setGeometry clearAll resize mkGridMap
  dsimp only
  rw [hsrc, if_pos hlay]
  rfl

theorem submap_correct_aux (g : GridMap) (info : SubmapInfo) (l : String) (q0 q1 : ℚ)
    (srcM : GMatrix)
    (hres : 0 < g.resolution)
    (hL0 : g.length0 = (g.size0 : ℚ) * g.resolution)
    (hL1 : g.length1 = (g.size1 : ℚ) * g.resolution)
    (hs0 : 0 ≤ g.startIndex0) (hs0n : g.startIndex0 < g.size0)
    (hs1 : 0 ≤ g.startIndex1) (hs1n : g.startIndex1 < g.size1)
    (hlay : l ∈ g.layers) (hsrc : g.data l = some srcM)
    (hoff0 : 0 ≤ info.off0) (hoffn0 : info.off0 + info.n0 ≤ g.size0)
    (hoff1 : 0 ≤ info.off1) (hoffn1 : info.off1 + info.n1 ≤ g.size1)
    (elen0 : info.len0 = ((info.n0 : ℤ) : ℚ) * g.resolution)
    (elen1 : info.len1 = ((info.n1 : ℤ) : ℚ) * g.resolution)
    (epos0 : info.pos0 = (g.pos0 - g.length0/2) + ((info.off0 : ℤ) : ℚ) * g.resolution
      + ((info.n0 : ℤ) : ℚ) * g.resolution / 2)
    (epos1 : info.pos1 = (g.pos1 - g.length1/2) + ((info.off1 : ℤ) : ℚ) * g.resolution
      + ((info.n1 : ℤ) : ℚ) * g.resolution / 2)
    (etl0 : info.topLeft0 = (info.off0 + g.startIndex0) % g.size0)
    (etl1 : info.topLeft1 = (info.off1 + g.startIndex1) % g.size1)
    (hin : checkIfPositionWithinMap q0 q1 (submapAssembled g info).length0
      (submapAssembled g info).length1 (submapAssembled g info).pos0
      (submapAssembled g info).pos1 = true) :
    atPositionGM (submapAssembled g info) l q0 q1 = atPositionGM g l q0 q1 := by
  obtain ⟨m1, m2, m3, m4, m5, m6, m7, m8, m9⟩ := submapAssembled_fields g info
  have hN0 : 0 < g.size0 := by omega
  have hN1 : 0 < g.size1 := by omega
  have esz0 : roundAway (info.len0 / g.resolution) = info.n0 := by
    rw [elen0, mul_div_cancel_right₀ _ (ne_of_gt hres), roundAway_intCast]
  have esz1 : roundAway (info.len1 / g.resolution) = info.n1 := by
    rw [elen1, mul_div_cancel_right₀ _ (ne_of_gt hres), roundAway_intCast]
  have hin2 := hin
  unfold checkIfPositionWithinMap at hin2
  simp only [Bool.and_eq_true] at hin2
  obtain ⟨hin0, hin1⟩ := hin2
  rw [m3, esz0, m6, epos0] at hin0
  rw [m4, esz1, m7, epos1] at hin1
  obtain ⟨hub0, hwin0, hfl0⟩ := submap_axis g.pos0 g.length0 g.resolution q0 g.size0
    info.off0 info.n0 hres hL0 hoff0 hoffn0 hin0
  obtain ⟨hub1, hwin1, hfl1⟩ := submap_axis g.pos1 g.length1 g.resolution q1 g.size1
    info.off1 info.n1 hres hL1 hoff1 hoffn1 hin1
  have htl0 : 0 ≤ info.topLeft0 ∧ info.topLeft0 < g.size0 := by
    rw [etl0]
    exact emod_mem _ _ hN0
  have htl1 : 0 ≤ info.topLeft1 ∧ info.topLeft1 < g.size1 := by
    rw [etl1]
    exact emod_mem _ _ hN1
  have hargeq0 : ∀ u : ℤ, 0 ≤ u → u < info.n0 →
      (if info.topLeft0 + u < g.size0 then info.topLeft0 + u else info.topLeft0 + u - g.size0)
        = (info.off0 + u + g.startIndex0) % g.size0 := by
    intro u hu hun
    rw [etl0]
    have h1 : info.off0 + u + g.startIndex0 = u + (info.off0 + g.startIndex0) := by ring
    rw [h1, Int.add_emod u (info.off0 + g.startIndex0) g.size0]
    rw [Int.emod_eq_of_lt hu (by omega)]
    have ht := emod_mem (info.off0 + g.startIndex0) g.size0 hN0
    rw [emod_window (u + (info.off0 + g.startIndex0) % g.size0) g.size0 hN0
      (by omega) (by omega)]
    split_ifs <;> omega
  have hargeq1 : ∀ v : ℤ, 0 ≤ v → v < info.n1 →
      (if info.topLeft1 + v < g.size1 then info.topLeft1 + v else info.topLeft1 + v - g.size1)
        = (info.off1 + v + g.startIndex1) % g.size1 := by
    intro v hv hvn
    rw [etl1]
    have h1 : info.off1 + v + g.startIndex1 = v + (info.off1 + g.startIndex1) := by ring
    rw [h1, Int.add_emod v (info.off1 + g.startIndex1) g.size1]
    rw [Int.emod_eq_of_lt hv (by omega)]
    have ht := emod_mem (info.off1 + g.startIndex1) g.size1 hN1
    rw [emod_window (v + (info.off1 + g.startIndex1) % g.size1) g.size1 hN1
      (by omega) (by omega)]
    split_ifs <;> omega
  have hcondS : checkIfPositionWithinMap q0 q1 g.length0 g.length1 g.pos0 g.pos1 = true := by
    unfold checkIfPositionWithinMap
    rw [hwin0, hwin1]
    rfl
  unfold atPositionGM getIndexGM
  rw [if_pos hin, if_pos hcondS]
  simp only [Option.some_bind]
  unfold getIndexFromPositionAxis mapIndexWithinRange
  rw [m1, m2, m3, m4, m5, m6, m7, m8, m9, esz0, esz1]
  rw [show q0 - (info.pos0 - ((info.n0 : ℤ) : ℚ) * g.resolution / 2)
      = q0 - ((g.pos0 - g.length0/2) + ((info.off0 : ℤ) : ℚ) * g.resolution) from by
    rw [epos0]; ring]
  rw [show q1 - (info.pos1 - ((info.n1 : ℤ) : ℚ) * g.resolution / 2)
      = q1 - ((g.pos1 - g.length1/2) + ((info.off1 : ℤ) : ℚ) * g.resolution) from by
    rw [epos1]; ring]
  rw [add_zero, add_zero]
  rw [Int.emod_eq_of_lt hub0.1 hub0.2, Int.emod_eq_of_lt hub1.1 hub1.2]
  rw [hfl0, hfl1]
  unfold cellValue
  rw [submapAssembled_data g info l hlay srcM hsrc, hsrc]
  rw [esz0, esz1]
  simp only [Option.map_some']
  rw [foldl_writeRegion_entry srcM (fun _ _ => none) info.topLeft0 info.topLeft1
    info.n0 info.n1 g.size0 g.size1 _ _ htl0.1 htl0.2 htl1.1 htl1.2
    (by omega) (by omega) hub0.1 hub0.2 hub1.1 hub1.2]
  rw [hargeq0 _ hub0.1 hub0.2, hargeq1 _ hub1.1 hub1.2]

/-- C5: a successful submap extraction whose window lies inside the
source agrees with the source: querying any (present) layer at any
position inside the submap's window yields the same value as querying
the source directly at that position. -/
theorem C5_submap_correct (g : GridMap) (pc0 pc1 lr0 lr1 : ℚ) (l : String) (q0 q1 : ℚ)
    (hres : 0 < g.resolution)
    (hL0 : g.length0 = (g.size0 : ℚ) * g.resolution)
    (hL1 : g.length1 = (g.size1 : ℚ) * g.resolution)
    (hs0 : 0 ≤ g.startIndex0) (hs0n : g.startIndex0 < g.size0)
    (hs1 : 0 ≤ g.startIndex1) (hs1n : g.startIndex1 < g.size1)
    (hlay : l ∈ g.layers) (hld : (g.data l).isSome = true)
    (hsucc : (getSubmapGM g pc0 pc1 lr0 lr1).success = true)
    (hin : checkIfPositionWithinMap q0 q1
        (getSubmapGM g pc0 pc1 lr0 lr1).submap.length0
        (getSubmapGM g pc0 pc1 lr0 lr1).submap.length1
        (getSubmapGM g pc0 pc1 lr0 lr1).submap.pos0
        (getSubmapGM g pc0 pc1 lr0 lr1).submap.pos1 = true) :
    atPositionGM (getSubmapGM g pc0 pc1 lr0 lr1).submap l q0 q1 = atPositionGM g l q0 q1 := by
  obtain ⟨srcM, hsrc⟩ := Option.isSome_iff_exists.mp hld
  have hinfo : (getSubmapInfo g pc0 pc1 lr0 lr1).success = true := by
    by_contra hc
    rw [Bool.not_eq_true] at hc
    have hf : (getSubmapGM g pc0 pc1 lr0 lr1).success = false := by
      unfold getSubmapGM
      dsimp only
      rw [if_pos hc]
    rw [hf] at hsucc
    exact Bool.noConfusion hsucc
  have hgeq : (getSubmapGM g pc0 pc1 lr0 lr1).submap
      = submapAssembled g (getSubmapInfo g pc0 pc1 lr0 lr1) := by
    unfold getSubmapGM
    dsimp only
    rw [if_neg (by rw [hinfo]; exact Bool.noConfusion)]
  rw [hgeq] at hin ⊢
  have hcomp := hinfo
  unfold getSubmapInfo at hcomp
  dsimp only at hcomp
  simp only [Bool.and_eq_true, decide_eq_true_eq] at hcomp
  obtain ⟨⟨⟨a1, a2⟩, a3⟩, a4⟩ := hcomp
  exact submap_correct_aux g (getSubmapInfo g pc0 pc1 lr0 lr1) l q0 q1 srcM hres hL0 hL1
    hs0 hs0n hs1 hs1n hlay hsrc a1 a2 a3 a4 rfl rfl rfl rfl rfl rfl hin

/-- Witness for C5: a 2 × 2 submap of the example grid, queried at an
interior position. -/
theorem C5_submap_correct_witness :
    atPositionGM (getSubmapGM gEx (1/2) (1/2) 2 2).submap "a" (1/4) (9/10)
      = atPositionGM gEx "a" (1/4) (9/10) :=
  C5_submap_correct gEx (1/2) (1/2) 2 2 "a" (1/4) (9/10)
    (by norm_num [gEx]) (by norm_num [gEx]) (by norm_num [gEx]) (by norm_num [gEx])
    (by norm_num [gEx]) (by norm_num [gEx]) (by norm_num [gEx])
    (by simp [gEx]) (by simp [gEx])
    (by norm_num [getSubmapGM, getSubmapInfo, roundAway, mapIndexWithinRange, gEx])
    (by norm_num [checkIfPositionWithinMap, withinAxis, getSubmapGM, getSubmapInfo,
      submapAssembled, setGeometry, clearAll, resize, mkGridMap, roundAway,
      mapIndexWithinRange, gEx])
